import Mathlib

/-!
# EvenChess — verification of the specification against the source

Shallow embedding of the EvenChess core (gesture classifier, phase state
machine, state container, clock subsystem, display synchronizer, chess
service wrapper) and proofs settling the frozen claims about it.

Source files embedded from the repository:
* src/input/actions.ts      — gesture classifier (timing windows, event mapping)
* src/app.ts                — display synchronizer (debounced single-flight flush)
* src/chess/chessservice.ts — chess.js wrapper (makeMove / makeMoveUci)

The files src/state/reducer.ts, src/state/store.ts, src/state/contracts.ts,
src/state/constants.ts and src/bullet/clock.ts are not part of the source
snapshot (only their test suites are); the definitions for them below are
modelled from the specification, as marked in their doc comments.
-/

namespace EvenChess

/-! ## Basic domain types (state/contracts.ts, modelled from the spec and tests) -/

inductive Direction where
  | up
  | down
deriving DecidableEq, Repr

inductive Color where
  | w
  | b
deriving DecidableEq, Repr

/-- The other side. -/
def Color.other : Color → Color
  | .w => .b
  | .b => .w

inductive Phase where
  | idle
  | pieceSelect
  | destSelect
  | promotionSelect
  | menu
  | difficultySelect
  | boardMarkersSelect
  | viewLog
  | resetConfirm
  | exitConfirm
  | modeSelect
  | bulletSetup
  | academySelect
  | coordinateDrill
  | knightPathDrill
  | tacticsDrill
  | mateDrill
  | pgnStudy
deriving DecidableEq, Repr

inductive Mode where
  | play
  | bullet
  | academy
deriving DecidableEq, Repr

inductive Difficulty where
  | easy
  | casual
  | serious
deriving DecidableEq, Repr

inductive MenuOption where
  | mode
  | boardMarkers
  | viewLog
  | difficulty
  | reset
  | exit
deriving DecidableEq, Repr

inductive DrillType where
  | coordinate
  | knightPath
  | tactics
  | mate
  | pgn
deriving DecidableEq, Repr

inductive NavAxis where
  | file
  | rank
deriving DecidableEq, Repr

inductive Feedback where
  | none
  | correct
  | wrong
deriving DecidableEq, Repr

/-- One legal move of a piece as shown in the destination carousel. -/
structure CarouselMove where
  uci : String
  san : String
  fromSq : String
  toSq : String
  promotion : Option Char := Option.none
deriving DecidableEq, Repr

/-- A movable piece summary for the side to move. -/
structure PieceEntry where
  id : String
  label : String
  color : Color
  type : Char
  square : String
  moves : List CarouselMove
deriving DecidableEq, Repr

/-- Bullet clock budgets, present only in bullet mode. -/
structure Timers where
  whiteMs : Int
  blackMs : Int
  incrementMs : Int
deriving DecidableEq, Repr

structure Score where
  correct : Nat
  total : Nat
deriving DecidableEq, Repr

structure KnightPath where
  startSquare : String
  targetSquare : String
  currentSquare : String
  optimalMoves : Nat
  movesTaken : Nat
deriving DecidableEq, Repr

structure TacticsPuzzle where
  fen : String
  solution : List String
  theme : String
deriving DecidableEq, Repr

structure PgnStudy where
  gameName : String
  moves : List String
  currentMoveIndex : Nat
deriving DecidableEq, Repr

/-- Academy drill sub-entity, present only while a drill phase is active. -/
structure AcademyState where
  drillType : DrillType
  targetSquare : Option String := Option.none
  score : Score
  cursorFile : Nat
  cursorRank : Nat
  navAxis : NavAxis
  feedback : Feedback
  knightPath : Option KnightPath := Option.none
  tacticsPuzzle : Option TacticsPuzzle := Option.none
  pgnStudy : Option PgnStudy := Option.none
deriving DecidableEq, Repr

/-- The session state aggregate owned by the phase state machine. -/
structure GameState where
  fen : String
  turn : Color
  pieces : List PieceEntry
  phase : Phase
  selectedPieceId : Option String
  selectedMoveIndex : Nat
  pendingPromotionMove : Option (String × String)
  selectedPromotionIndex : Nat
  mode : Mode
  history : List String
  lastMove : Option String
  engineThinking : Bool
  inCheck : Bool
  gameOver : Option String
  pendingMove : Option CarouselMove
  menuSelectedIndex : Nat
  hasUnsavedChanges : Bool
  previousPhase : Option Phase
  difficulty : Difficulty
  logScrollOffset : Nat
  phaseEnteredAt : Int
  timerActive : Bool
  lastTickTime : Option Int
  selectedTimeControlIndex : Nat
  showBoardMarkers : Bool
  timers : Option Timers
  academyState : Option AcademyState
deriving DecidableEq, Repr

/-! ## Actions (state/contracts.ts, modelled from the spec and tests) -/

inductive Action where
  | SCROLL (direction : Direction)
  | TAP (selectedIndex : Nat) (selectedName : String)
  | DOUBLE_TAP
  | OPEN_MENU
  | CLOSE_MENU
  | MENU_SELECT (option : MenuOption)
  | SET_DIFFICULTY (level : Difficulty)
  | SET_BOARD_MARKERS (enabled : Bool)
  | SET_MODE (mode : Mode)
  | START_BULLET_GAME (timeControlIndex : Nat)
  | TIMER_TICK
  | APPLY_INCREMENT (color : Color)
  | START_DRILL (drillType : DrillType)
  | DRILL_ANSWER (correct : Bool)
  | REFRESH (fen : String) (turn : Color) (pieces : List PieceEntry) (inCheck : Bool)
  | ENGINE_THINKING
  | ENGINE_MOVE (uci : String) (san : String)
  | ENGINE_ERROR
  | LOAD_GAME (fen : String) (history : List String) (turn : Color)
  | MARK_SAVED
  | CONFIRM_EXIT (save : Bool)
  | NEW_GAME
  | FOREGROUND_ENTER
  | FOREGROUND_EXIT
deriving DecidableEq, Repr

/-! ## Gesture classifier (src/input/actions.ts) -/

/-- The three module-level mutable timestamps of src/input/actions.ts
(lastScrollTime, tapCooldownUntil, lastTapTime), made explicit.
Date.now() is passed in as the parameter now. -/
structure InputCtx where
  lastScrollTime : Int
  tapCooldownUntil : Int
  lastTapTime : Int
deriving DecidableEq, Repr

def DEBOUNCE_MS : Int := 15

def TAP_COOLDOWN_MS : Int := 400

def SCROLL_SUPPRESS_AFTER_TAP_MS : Int := 150

/-- isScrollDebounced: true when fewer than DEBOUNCE_MS elapsed since
lastScrollTime; otherwise records lastScrollTime := now and returns false.
Note the record happens here, before any later suppression check. -/
def isScrollDebounced (now : Int) (ctx : InputCtx) : Bool × InputCtx :=
  if now - ctx.lastScrollTime < DEBOUNCE_MS then
    (true, ctx)
  else
    (false, { ctx with lastScrollTime := now })

/-- extendTapCooldown: raises tapCooldownUntil to now + durationMs when that
is later than the current deadline, otherwise leaves it unchanged. -/
def extendTapCooldown (now : Int) (durationMs : Int) (ctx : InputCtx) : InputCtx :=
  let newCooldownUntil := now + durationMs
  if newCooldownUntil > ctx.tapCooldownUntil then
    { ctx with tapCooldownUntil := newCooldownUntil }
  else
    ctx

def isInTapCooldown (now : Int) (ctx : InputCtx) : Bool :=
  now < ctx.tapCooldownUntil

def recordTap (now : Int) (ctx : InputCtx) : InputCtx :=
  { ctx with lastTapTime := now }

def isScrollSuppressed (now : Int) (ctx : InputCtx) : Bool :=
  now - ctx.lastTapTime < SCROLL_SUPPRESS_AFTER_TAP_MS

/-- Event type vocabulary of the SDK (OsEventTypeList). -/
inductive OsEventType where
  | scrollTop
  | scrollBottom
  | click
  | doubleClick
  | foregroundEnter
  | foregroundExit
  | abnormalExit
deriving DecidableEq, Repr

/-- List-selection event; eventType is absent for the simulator click quirk. -/
structure ListItemEvent where
  eventType : Option OsEventType
  currentSelectItemIndex : Option Nat
  currentSelectItemName : Option String
deriving DecidableEq, Repr

/-- System event shape. -/
structure SysItemEvent where
  eventType : Option OsEventType
deriving DecidableEq, Repr

/-- mapListEvent of src/input/actions.ts: classifies a list event, returning
the emitted action (or none) together with the updated timing context. -/
def mapListEvent (now : Int) (ctx : InputCtx) (event : ListItemEvent) :
    Option Action × InputCtx :=
  match event.eventType with
  | some .scrollTop =>
    let (debounced, ctx1) := isScrollDebounced now ctx
    if debounced then (Option.none, ctx1)
    else if isScrollSuppressed now ctx1 then (Option.none, ctx1)
    else (some (.SCROLL .up), ctx1)
  | some .scrollBottom =>
    let (debounced, ctx1) := isScrollDebounced now ctx
    if debounced then (Option.none, ctx1)
    else if isScrollSuppressed now ctx1 then (Option.none, ctx1)
    else (some (.SCROLL .down), ctx1)
  | some .click =>
    let ctx1 := recordTap now ctx
    if isInTapCooldown now ctx1 then (Option.none, ctx1)
    else
      (some (.TAP (event.currentSelectItemIndex.getD 0)
        (event.currentSelectItemName.getD "")), ctx1)
  | some .doubleClick =>
    let ctx1 := recordTap now ctx
    if isInTapCooldown now ctx1 then (Option.none, ctx1)
    else (some .DOUBLE_TAP, ctx1)
  | _ =>
    match event.currentSelectItemIndex with
    | some idx =>
      let ctx1 := recordTap now ctx
      if isInTapCooldown now ctx1 then (Option.none, ctx1)
      else (some (.TAP idx (event.currentSelectItemName.getD "")), ctx1)
    | Option.none => (Option.none, ctx)

/-- mapSysEvent of src/input/actions.ts. -/
def mapSysEvent (now : Int) (ctx : InputCtx) (event : SysItemEvent) :
    Option Action × InputCtx :=
  match event.eventType with
  | some .scrollTop =>
    let (debounced, ctx1) := isScrollDebounced now ctx
    if debounced then (Option.none, ctx1)
    else if isScrollSuppressed now ctx1 then (Option.none, ctx1)
    else (some (.SCROLL .up), ctx1)
  | some .scrollBottom =>
    let (debounced, ctx1) := isScrollDebounced now ctx
    if debounced then (Option.none, ctx1)
    else if isScrollSuppressed now ctx1 then (Option.none, ctx1)
    else (some (.SCROLL .down), ctx1)
  | some .click =>
    let ctx1 := recordTap now ctx
    if isInTapCooldown now ctx1 then (Option.none, ctx1)
    else (some (.TAP 0 ""), ctx1)
  | some .doubleClick =>
    let ctx1 := recordTap now ctx
    if isInTapCooldown now ctx1 then (Option.none, ctx1)
    else (some .DOUBLE_TAP, ctx1)
  | some .foregroundEnter => (some .FOREGROUND_ENTER, ctx)
  | some .foregroundExit => (some .FOREGROUND_EXIT, ctx)
  | some .abnormalExit => (Option.none, ctx)
  | Option.none =>
    let ctx1 := recordTap now ctx
    if isInTapCooldown now ctx1 then (Option.none, ctx1)
    else (some (.TAP 0 ""), ctx1)

/-! ## Chess service (src/chess/chessservice.ts) -/

/-- Observable position state of the wrapped chess.js game. -/
structure GameSnap where
  fen : String
  turn : Color
  history : List String
deriving DecidableEq, Repr

/-- The external rules engine consumed by ChessService (chess.js game.move):
chess rules are out of scope per the spec, so the move primitive is a
parameter. chess.js throws on an illegal move before mutating the game;
the throw is modelled as Option.none with the snapshot untouched. On success
it returns the updated snapshot and the SAN of the committed move. -/
abbrev Rules : Type :=
  String → String → Option String → GameSnap → Option (GameSnap × String)

/-- makeMove of ChessService: delegates to the rules engine, catching the
throw on illegal input (returns null, game unchanged); on success the
position advances and the SAN is returned. -/
def makeMove (rules : Rules) (g : GameSnap) (fromSq toSq : String)
    (promotion : Option String) : Option String × GameSnap :=
  match rules fromSq toSq promotion g with
  | some (g1, san) => (some san, g1)
  | Option.none => (Option.none, g)

/-- makeMoveUci of ChessService: rejects strings shorter than 4 characters
(the empty string included), otherwise slices from/to/promotion out of the
UCI string and delegates to makeMove. -/
def makeMoveUci (rules : Rules) (g : GameSnap) (uci : String) :
    Option String × GameSnap :=
  if uci.length < 4 then (Option.none, g)
  else
    makeMove rules g (uci.take 2) ((uci.drop 2).take 2)
      (if 4 < uci.length then some ((uci.drop 4).take 1) else Option.none)

/-! ## Constants (src/state/constants.ts)

Modelled from the spec: src/state/constants.ts is not in the source
snapshot (only imported by the tests). The spec fixes a maximum history
length and a five-entry time-control list (1+0, 3+0, 3+5, 5+0, 5+5 per the
selector tests, with index 3 being 3+5 per the reducer tests); the concrete
cap value is not given by the spec, so a representative value is used. -/

def MAX_HISTORY_LENGTH : Nat := 50

def MENU_OPTIONS : List MenuOption :=
  [.mode, .boardMarkers, .viewLog, .difficulty, .reset, .exit]

def MENU_OPTION_COUNT : Nat := MENU_OPTIONS.length

/-- Time controls as (initialMs, incrementMs). -/
def TIME_CONTROLS : List (Int × Int) :=
  [(60000, 0), (180000, 0), (300000, 0), (180000, 5000), (300000, 5000)]

/-! ## Clock subsystem (src/bullet/clock.ts)

Modelled from the spec: src/bullet/clock.ts is not in the source snapshot
(only its tests are). Pure functions over a state snapshot per spec 4.4. -/

/-- The partial update returned by tickTimer: an empty update is modelled as
both fields Option.none. -/
structure TimerUpdate where
  timers : Option Timers
  lastTickTime : Option Int
deriving DecidableEq, Repr

/-- Modelled from the spec: tickTimer (tick) of src/bullet/clock.ts.
No-op unless timerActive and timers are both present; computes
elapsed = now - lastTickTime (zero when lastTickTime is null), subtracts
it from the side to move, clamps at zero, and refreshes lastTickTime. -/
def tickTimer (now : Int) (s : GameState) : TimerUpdate :=
  if s.timerActive = false then ⟨Option.none, Option.none⟩
  else
    match s.timers with
    | Option.none => ⟨Option.none, Option.none⟩
    | some t =>
      let elapsed : Int :=
        match s.lastTickTime with
        | Option.none => 0
        | some lt => now - lt
      let t1 :=
        match s.turn with
        | .w => { t with whiteMs := max 0 (t.whiteMs - elapsed) }
        | .b => { t with blackMs := max 0 (t.blackMs - elapsed) }
      ⟨some t1, some now⟩

/-- Modelled from the spec: applyIncrement of src/bullet/clock.ts. -/
def applyIncrement (s : GameState) (color : Color) : Option Timers :=
  match s.timers with
  | Option.none => Option.none
  | some t =>
    match color with
    | .w => some { t with whiteMs := t.whiteMs + t.incrementMs }
    | .b => some { t with blackMs := t.blackMs + t.incrementMs }

/-- Modelled from the spec: isTimeExpired of src/bullet/clock.ts. -/
def isTimeExpired (s : GameState) (color : Color) : Bool :=
  match s.timers with
  | Option.none => false
  | some t =>
    match color with
    | .w => t.whiteMs ≤ 0
    | .b => t.blackMs ≤ 0

/-- Modelled from the spec: formatTime of src/bullet/clock.ts.
Floors to whole seconds, zero-pads seconds to two digits. -/
def formatTime (ms : Nat) : String :=
  let totalSeconds := ms / 1000
  let minutes := totalSeconds / 60
  let seconds := totalSeconds % 60
  toString minutes ++ ":" ++ (if seconds < 10 then "0" else "") ++ toString seconds

/-! ## Phase state machine (src/state/reducer.ts)

Modelled from the spec: src/state/reducer.ts is not in the source snapshot
(only its tests are). The reducer below follows spec 4.2: the global
gameOver gate first, identity no-ops for inapplicable combinations,
carousels with wraparound, move commitment with capped history, bullet
timer delegation to the clock subsystem, and engine/load/save actions.
Drill-puzzle generation is external randomness and is modelled by fixed
representative payloads. -/

/-- Append a move to the history, dropping the oldest entries beyond
MAX_HISTORY_LENGTH (general cap parameter n). -/
def capAppend (n : Nat) (h : List String) (san : String) : List String :=
  let h1 := h ++ [san]
  if n < h1.length then h1.drop (h1.length - n) else h1

/-- Cap a whole list at n entries, dropping the oldest. -/
def capList (n : Nat) (h : List String) : List String :=
  if n < h.length then h.drop (h.length - n) else h

/-- getSelectedPiece selector: the piece matching selectedPieceId. -/
def getSelectedPiece (s : GameState) : Option PieceEntry :=
  match s.selectedPieceId with
  | Option.none => Option.none
  | some pid => s.pieces.find? (fun p => p.id = pid)

/-- getSelectedMove selector: the highlighted move of the selected piece. -/
def getSelectedMove (s : GameState) : Option CarouselMove :=
  match getSelectedPiece s with
  | Option.none => Option.none
  | some p => p.moves[s.selectedMoveIndex]?

/-- Promotion carousel order: Queen, Rook, Bishop, Knight. -/
def PROMOTION_PIECES : List Char := ['q', 'r', 'b', 'n']

/-- Commit a chosen move: append to history (capped), record lastMove and
pendingMove for the orchestrator, clear selection state, return to idle. -/
def commitMove (s : GameState) (m : CarouselMove) : GameState :=
  { s with
    phase := .idle
    history := capAppend MAX_HISTORY_LENGTH s.history m.san
    lastMove := some m.san
    pendingMove := some m
    selectedPieceId := Option.none
    selectedMoveIndex := 0
    pendingPromotionMove := Option.none
    selectedPromotionIndex := 0
    hasUnsavedChanges := true }

/-- Enter the menu, recording previousPhase without overwriting it when
already in the menu; refused while the engine is thinking. -/
def openMenu (now : Int) (s : GameState) : GameState :=
  if s.engineThinking then s
  else
    { s with
      phase := .menu
      previousPhase := if s.phase = .menu then s.previousPhase else some s.phase
      menuSelectedIndex := 0
      phaseEnteredAt := now }

/-- NEW_GAME: clears gameOver and position-session data. -/
def newGame (s : GameState) : GameState :=
  { s with
    gameOver := Option.none
    history := []
    phase := .idle
    lastMove := Option.none
    pendingMove := Option.none
    selectedPieceId := Option.none
    selectedMoveIndex := 0
    pendingPromotionMove := Option.none
    selectedPromotionIndex := 0
    engineThinking := false
    hasUnsavedChanges := false
    timerActive := false
    lastTickTime := Option.none }

/-- Cycle a bounded index with wraparound: (i plus-or-minus 1 + n) mod n. -/
def cycleIndex (dir : Direction) (i n : Nat) : Nat :=
  if n = 0 then i
  else
    match dir with
    | .down => (i + 1) % n
    | .up => (i + n - 1) % n

/-- Index of the currently selected piece in the pieces list. -/
def selectedPieceIndex (s : GameState) : Nat :=
  match s.selectedPieceId with
  | Option.none => 0
  | some pid => ((s.pieces.findIdx? (fun p => p.id = pid)).getD 0)

/-- SCROLL handling per phase (spec 4.2 selection carousels). -/
def reduceScroll (now : Int) (s : GameState) (dir : Direction) : GameState :=
  match s.phase with
  | .idle =>
    match s.pieces with
    | [] => s
    | p :: _ =>
      { s with phase := .pieceSelect, selectedPieceId := some p.id,
               phaseEnteredAt := now }
  | .pieceSelect =>
    match s.pieces with
    | [] => s
    | _ =>
      let i := cycleIndex dir (selectedPieceIndex s) s.pieces.length
      { s with selectedPieceId := (s.pieces[i]?).map (fun p => p.id) }
  | .destSelect =>
    match getSelectedPiece s with
    | Option.none => s
    | some p =>
      { s with selectedMoveIndex := cycleIndex dir s.selectedMoveIndex p.moves.length }
  | .promotionSelect =>
    { s with selectedPromotionIndex :=
        cycleIndex dir s.selectedPromotionIndex PROMOTION_PIECES.length }
  | .menu =>
    { s with menuSelectedIndex := cycleIndex dir s.menuSelectedIndex MENU_OPTION_COUNT }
  | .difficultySelect =>
    { s with menuSelectedIndex := cycleIndex dir s.menuSelectedIndex 3 }
  | .boardMarkersSelect =>
    { s with menuSelectedIndex := cycleIndex dir s.menuSelectedIndex 2 }
  | .modeSelect =>
    { s with menuSelectedIndex := cycleIndex dir s.menuSelectedIndex 3 }
  | .bulletSetup =>
    { s with selectedTimeControlIndex :=
        cycleIndex dir s.selectedTimeControlIndex TIME_CONTROLS.length }
  | .academySelect =>
    { s with menuSelectedIndex := cycleIndex dir s.menuSelectedIndex 5 }
  | .resetConfirm =>
    { s with menuSelectedIndex := cycleIndex dir s.menuSelectedIndex 2 }
  | .exitConfirm =>
    { s with menuSelectedIndex := cycleIndex dir s.menuSelectedIndex 2 }
  | .viewLog =>
    match dir with
    | .down => { s with logScrollOffset := s.logScrollOffset + 1 }
    | .up => { s with logScrollOffset := s.logScrollOffset - 1 }
  | _ => s

/-- START_BULLET_GAME: seed timers from the selected preset, timers armed
but not yet running. -/
def startBulletGame (s : GameState) (timeControlIndex : Nat) : GameState :=
  let tc := (TIME_CONTROLS[timeControlIndex]?).getD (60000, 0)
  { s with
    phase := .idle
    timers := some ⟨tc.1, tc.1, tc.2⟩
    timerActive := false
    lastTickTime := Option.none }

/-- Modelled from the spec: representative drill payloads (generation is
external randomness, out of the reducer's pure scope). -/
def startDrill (now : Int) (s : GameState) (d : DrillType) : GameState :=
  let base : AcademyState :=
    { drillType := d, score := ⟨0, 0⟩, cursorFile := 0, cursorRank := 0,
      navAxis := .file, feedback := .none }
  let acad : AcademyState :=
    match d with
    | .coordinate => { base with targetSquare := some "e4" }
    | .knightPath => { base with knightPath := some ⟨"a1", "c2", "a1", 1, 0⟩ }
    | .tactics => { base with tacticsPuzzle := some ⟨"tactics-fen", ["e2e4"], "fork"⟩ }
    | .mate => { base with tacticsPuzzle := some ⟨"mate-fen", ["d1h5"], "mate"⟩ }
    | .pgn => { base with pgnStudy := some ⟨"Immortal Game", ["e4", "e5"], 0⟩ }
  let phase : Phase :=
    match d with
    | .coordinate => .coordinateDrill
    | .knightPath => .knightPathDrill
    | .tactics => .tacticsDrill
    | .mate => .mateDrill
    | .pgn => .pgnStudy
  { s with phase := phase, academyState := some acad, phaseEnteredAt := now }

/-- MENU_SELECT handling (spec 4.2 menu meta-transitions). -/
def reduceMenuSelect (now : Int) (s : GameState) (opt : MenuOption) : GameState :=
  match opt with
  | .mode => { s with phase := .modeSelect, menuSelectedIndex := 0, phaseEnteredAt := now }
  | .boardMarkers =>
    { s with phase := .boardMarkersSelect,
             menuSelectedIndex := if s.showBoardMarkers then 0 else 1,
             phaseEnteredAt := now }
  | .viewLog =>
    { s with phase := .viewLog, logScrollOffset := 0, phaseEnteredAt := now }
  | .difficulty =>
    { s with phase := .difficultySelect,
             menuSelectedIndex :=
               match s.difficulty with
               | .easy => 0
               | .casual => 1
               | .serious => 2,
             phaseEnteredAt := now }
  | .reset => { s with phase := .resetConfirm, menuSelectedIndex := 1, phaseEnteredAt := now }
  | .exit =>
    if s.hasUnsavedChanges then
      { s with phase := .exitConfirm, menuSelectedIndex := 0, phaseEnteredAt := now }
    else { s with phase := .idle, phaseEnteredAt := now }

/-- SET_MODE handling. -/
def reduceSetMode (now : Int) (s : GameState) (m : Mode) : GameState :=
  match m with
  | .play =>
    { s with mode := .play, phase := .idle, timerActive := false,
             timers := Option.none, phaseEnteredAt := now }
  | .bullet => { s with mode := .bullet, phase := .bulletSetup, phaseEnteredAt := now }
  | .academy => { s with mode := .academy, phase := .academySelect, phaseEnteredAt := now }

/-- TAP handling per phase (spec 4.2: carousel confirmation / commitment). -/
def reduceTap (now : Int) (s : GameState) : GameState :=
  match s.phase with
  | .idle =>
    match s.pieces with
    | [] => s
    | p :: _ =>
      { s with phase := .pieceSelect, selectedPieceId := some p.id,
               phaseEnteredAt := now }
  | .pieceSelect =>
    match getSelectedPiece s with
    | Option.none => s
    | some _ =>
      { s with phase := .destSelect, selectedMoveIndex := 0, phaseEnteredAt := now }
  | .destSelect =>
    match getSelectedMove s with
    | Option.none => s
    | some m =>
      if m.promotion.isSome then
        { s with phase := .promotionSelect,
                 pendingPromotionMove := some (m.fromSq, m.toSq),
                 selectedPromotionIndex := 0, phaseEnteredAt := now }
      else commitMove s m
  | .promotionSelect =>
    match s.pendingPromotionMove with
    | Option.none => s
    | some (f, t) =>
      let promo := (PROMOTION_PIECES[s.selectedPromotionIndex]?).getD 'q'
      commitMove s
        { uci := f ++ t ++ String.mk [promo], san := f ++ t ++ String.mk [promo],
          fromSq := f, toSq := t, promotion := some promo }
  | .menu =>
    match MENU_OPTIONS[s.menuSelectedIndex]? with
    | Option.none => s
    | some opt => reduceMenuSelect now s opt
  | .difficultySelect =>
    let level : Difficulty :=
      if s.menuSelectedIndex = 0 then .easy
      else if s.menuSelectedIndex = 1 then .casual else .serious
    { s with difficulty := level, phase := .menu, phaseEnteredAt := now }
  | .boardMarkersSelect =>
    { s with showBoardMarkers := s.menuSelectedIndex = 0, phase := .menu,
             phaseEnteredAt := now }
  | .modeSelect =>
    let m : Mode :=
      if s.menuSelectedIndex = 0 then .play
      else if s.menuSelectedIndex = 1 then .bullet else .academy
    reduceSetMode now s m
  | .bulletSetup => startBulletGame s s.selectedTimeControlIndex
  | .academySelect =>
    let d : DrillType :=
      if s.menuSelectedIndex = 0 then .coordinate
      else if s.menuSelectedIndex = 1 then .tactics
      else if s.menuSelectedIndex = 2 then .mate
      else if s.menuSelectedIndex = 3 then .knightPath else .pgn
    startDrill now s d
  | .viewLog =>
    { s with phase := .menu, logScrollOffset := 0, phaseEnteredAt := now }
  | .resetConfirm =>
    if s.menuSelectedIndex = 0 then
      { s with phase := .idle, phaseEnteredAt := now }
    else { s with phase := .menu, phaseEnteredAt := now }
  | .exitConfirm =>
    if s.menuSelectedIndex = 0 then
      { s with phase := .idle, hasUnsavedChanges := false, phaseEnteredAt := now }
    else { s with phase := .menu, phaseEnteredAt := now }
  | _ => s

/-- Gesture-disambiguation window for double-tap after phase entry (ms). -/
def DOUBLE_TAP_DISAMBIGUATION_MS : Int := 200

/-- DOUBLE_TAP handling (spec 4.2 gesture disambiguation and back-navigation). -/
def reduceDoubleTap (now : Int) (s : GameState) : GameState :=
  match s.phase with
  | .idle => openMenu now s
  | .pieceSelect =>
    if now - s.phaseEnteredAt < DOUBLE_TAP_DISAMBIGUATION_MS then openMenu now s
    else
      { s with phase := .idle, selectedPieceId := Option.none,
               selectedMoveIndex := 0, phaseEnteredAt := now }
  | .destSelect =>
    { s with phase := .pieceSelect, selectedMoveIndex := 0, phaseEnteredAt := now }
  | .promotionSelect =>
    { s with phase := .destSelect, pendingPromotionMove := Option.none,
             selectedPromotionIndex := 0, phaseEnteredAt := now }
  | .menu =>
    { s with phase := s.previousPhase.getD .idle, previousPhase := Option.none,
             phaseEnteredAt := now }
  | .difficultySelect => { s with phase := .menu, phaseEnteredAt := now }
  | .boardMarkersSelect => { s with phase := .menu, phaseEnteredAt := now }
  | .viewLog => { s with phase := .menu, logScrollOffset := 0, phaseEnteredAt := now }
  | .resetConfirm => { s with phase := .menu, phaseEnteredAt := now }
  | .exitConfirm => { s with phase := .menu, phaseEnteredAt := now }
  | .modeSelect => { s with phase := .menu, phaseEnteredAt := now }
  | .bulletSetup => { s with phase := .modeSelect, phaseEnteredAt := now }
  | .academySelect => { s with phase := .modeSelect, phaseEnteredAt := now }
  | .coordinateDrill =>
    match s.academyState with
    | Option.none => s
    | some a =>
      match a.navAxis with
      | .rank => { s with academyState := some { a with navAxis := .file } }
      | .file =>
        { s with phase := .academySelect, academyState := Option.none,
                 phaseEnteredAt := now }
  | _ =>
    { s with phase := .academySelect, academyState := Option.none,
             phaseEnteredAt := now }

/-- TIMER_TICK: delegates to the clock subsystem and ends the game with a
time-based reason when the mover's clock reaches zero. -/
def reduceTimerTick (now : Int) (s : GameState) : GameState :=
  let u := tickTimer now s
  match u.timers with
  | Option.none => s
  | some t1 =>
    let s1 := { s with timers := some t1, lastTickTime := u.lastTickTime }
    match s.turn with
    | .w =>
      if t1.whiteMs ≤ 0 then
        { s1 with timerActive := false, gameOver := some "Black wins on time!" }
      else s1
    | .b =>
      if t1.blackMs ≤ 0 then
        { s1 with timerActive := false, gameOver := some "White wins on time!" }
      else s1

/-- The reducer body once the global gameOver gate has been passed. -/
def reduceBody (now : Int) (s : GameState) (a : Action) : GameState :=
  match a with
  | .SCROLL dir => reduceScroll now s dir
  | .TAP _ _ => reduceTap now s
  | .DOUBLE_TAP => reduceDoubleTap now s
  | .OPEN_MENU => openMenu now s
  | .CLOSE_MENU =>
    { s with phase := s.previousPhase.getD .idle, previousPhase := Option.none,
             phaseEnteredAt := now }
  | .MENU_SELECT opt => if s.phase = .menu then reduceMenuSelect now s opt else s
  | .SET_DIFFICULTY level => { s with difficulty := level, phase := .menu, phaseEnteredAt := now }
  | .SET_BOARD_MARKERS enabled =>
    { s with showBoardMarkers := enabled, phase := .menu, phaseEnteredAt := now }
  | .SET_MODE m => reduceSetMode now s m
  | .START_BULLET_GAME i => startBulletGame s i
  | .TIMER_TICK => reduceTimerTick now s
  | .APPLY_INCREMENT c =>
    match applyIncrement s c with
    | Option.none => s
    | some t1 => { s with timers := some t1 }
  | .START_DRILL d => startDrill now s d
  | .DRILL_ANSWER correct =>
    match s.academyState with
    | Option.none => s
    | some a =>
      let a1 : AcademyState :=
        { a with
          score := ⟨a.score.correct + (if correct then 1 else 0), a.score.total + 1⟩,
          feedback := if correct then .correct else .wrong }
      { s with academyState := some a1 }
  | .REFRESH fen turn pieces inCheck =>
    { s with fen := fen, turn := turn, pieces := pieces, inCheck := inCheck,
             hasUnsavedChanges := !s.history.isEmpty }
  | .ENGINE_THINKING => { s with engineThinking := true }
  | .ENGINE_MOVE _ san =>
    { s with
      phase := .idle
      history := capAppend MAX_HISTORY_LENGTH s.history san
      lastMove := some san
      engineThinking := false
      pendingMove := Option.none }
  | .ENGINE_ERROR => { s with engineThinking := false }
  | .LOAD_GAME fen history turn =>
    { s with fen := fen, history := capList MAX_HISTORY_LENGTH history,
             turn := turn, phase := .idle, hasUnsavedChanges := false }
  | .MARK_SAVED => { s with hasUnsavedChanges := false }
  | .CONFIRM_EXIT save => if save then { s with hasUnsavedChanges := false } else s
  | .NEW_GAME => newGame s
  | .FOREGROUND_ENTER => s
  | .FOREGROUND_EXIT => s

/-- Modelled from the spec: reduce of src/state/reducer.ts. Pure and total;
the global gate comes first: with gameOver set, only NEW_GAME is processed
and every other action returns the state unchanged. -/
def reduce (now : Int) (s : GameState) (a : Action) : GameState :=
  match s.gameOver, a with
  | some _, .NEW_GAME => newGame s
  | some _, _ => s
  | Option.none, _ => reduceBody now s a

/-- Modelled from the spec: buildInitialState of src/state/contracts.ts —
the fresh default session state (field defaults as exercised by the tests). -/
def buildInitialState : GameState :=
  { fen := "rnbqkbnr/pppppppp/8/8/8/8/PPPPPPPP/RNBQKBNR w KQkq - 0 1"
    turn := .w
    pieces := []
    phase := .idle
    selectedPieceId := Option.none
    selectedMoveIndex := 0
    pendingPromotionMove := Option.none
    selectedPromotionIndex := 0
    mode := .play
    history := []
    lastMove := Option.none
    engineThinking := false
    inCheck := false
    gameOver := Option.none
    pendingMove := Option.none
    menuSelectedIndex := 0
    hasUnsavedChanges := false
    previousPhase := Option.none
    difficulty := .casual
    logScrollOffset := 0
    phaseEnteredAt := 0
    timerActive := false
    lastTickTime := Option.none
    selectedTimeControlIndex := 2
    showBoardMarkers := true
    timers := Option.none
    academyState := Option.none }

/-- Session states reachable from the initial state by dispatching actions. -/
inductive Reachable : GameState → Prop where
  | init : Reachable buildInitialState
  | step (now : Int) (a : Action) {s : GameState} :
      Reachable s → Reachable (reduce now s a)

/-! ## State container (src/state/store.ts)

Modelled from the spec: src/state/store.ts is not in the source snapshot
(only its tests are). A listener is abstracted by its observable behavior:
a function of (newState, previousState) that either succeeds or throws,
represented as an Except value. dispatch applies the reducer; when the
result equals the previous state (the model of reference equality — the
reducer returns the identical state exactly on its no-op branches) no
listener is invoked; otherwise every listener is invoked in subscription
order, each failure caught in isolation, and dispatch itself never throws
(it is a total function). -/

abbrev Listener (ε : Type) : Type := GameState → GameState → Except ε Unit

/-- Modelled from the spec: dispatch of src/state/store.ts. Returns the new
state together with the ordered list of listener outcomes (one entry per
invoked listener; an error entry is a caught listener exception). -/
def dispatch {ε : Type} (listeners : List (Listener ε)) (now : Int)
    (s : GameState) (a : Action) : GameState × List (Except ε Unit) :=
  let s1 := reduce now s a
  if s1 = s then (s, [])
  else (s1, listeners.map (fun l => l s1 s))

/-! ## Display synchronizer (src/app.ts, flushDisplayUpdate) -/

/-- The change-relevant diff of flushDisplayUpdate (src/app.ts lines
316-334). Optional chaining on timers/academyState is modelled by Option
map/bind, so a missing parent compares as Option.none exactly like an
undefined field access in the source. -/
def DisplayChanged (state prev : GameState) : Prop :=
  state.phase ≠ prev.phase ∨
  state.fen ≠ prev.fen ∨
  state.engineThinking ≠ prev.engineThinking ∨
  state.gameOver ≠ prev.gameOver ∨
  state.selectedPieceId ≠ prev.selectedPieceId ∨
  state.selectedMoveIndex ≠ prev.selectedMoveIndex ∨
  state.menuSelectedIndex ≠ prev.menuSelectedIndex ∨
  state.selectedTimeControlIndex ≠ prev.selectedTimeControlIndex ∨
  state.timers.map Timers.whiteMs ≠ prev.timers.map Timers.whiteMs ∨
  state.timers.map Timers.blackMs ≠ prev.timers.map Timers.blackMs ∨
  state.academyState.bind AcademyState.targetSquare ≠
    prev.academyState.bind AcademyState.targetSquare ∨
  state.academyState.map (fun a => a.score.total) ≠
    prev.academyState.map (fun a => a.score.total) ∨
  state.academyState.map AcademyState.cursorFile ≠
    prev.academyState.map AcademyState.cursorFile ∨
  state.academyState.map AcademyState.cursorRank ≠
    prev.academyState.map AcademyState.cursorRank ∨
  state.academyState.map AcademyState.navAxis ≠
    prev.academyState.map AcademyState.navAxis ∨
  state.academyState.map AcademyState.feedback ≠
    prev.academyState.map AcademyState.feedback ∨
  (state.academyState.bind AcademyState.pgnStudy).map PgnStudy.currentMoveIndex ≠
    (prev.academyState.bind AcademyState.pgnStudy).map PgnStudy.currentMoveIndex ∨
  (state.academyState.bind AcademyState.pgnStudy).map PgnStudy.gameName ≠
    (prev.academyState.bind AcademyState.pgnStudy).map PgnStudy.gameName

instance (state prev : GameState) : Decidable (DisplayChanged state prev) := by
  unfold DisplayChanged
  infer_instance

/-- isDrillMode of the flush body (src/app.ts lines 338-342): the union of
the coordinate, knight-path, tactics, mate and PGN-study phases. -/
def isDrillMode (p : Phase) : Bool :=
  match p with
  | .coordinateDrill | .knightPathDrill | .tacticsDrill | .mateDrill | .pgnStudy => true
  | _ => false

/-- drillCursorChanged of the flush body (src/app.ts lines 349-356). -/
def DrillCursorChanged (state prev : GameState) : Prop :=
  isDrillMode state.phase = true ∧
  (state.academyState.map AcademyState.cursorFile ≠
     prev.academyState.map AcademyState.cursorFile ∨
   state.academyState.map AcademyState.cursorRank ≠
     prev.academyState.map AcademyState.cursorRank ∨
   (state.academyState.bind AcademyState.knightPath).map KnightPath.currentSquare ≠
     (prev.academyState.bind AcademyState.knightPath).map KnightPath.currentSquare ∨
   (state.academyState.bind AcademyState.tacticsPuzzle).map TacticsPuzzle.fen ≠
     (prev.academyState.bind AcademyState.tacticsPuzzle).map TacticsPuzzle.fen ∨
   (state.academyState.bind AcademyState.pgnStudy).map PgnStudy.currentMoveIndex ≠
     (prev.academyState.bind AcademyState.pgnStudy).map PgnStudy.currentMoveIndex ∨
   (state.academyState.bind AcademyState.pgnStudy).map PgnStudy.gameName ≠
     (prev.academyState.bind AcademyState.pgnStudy).map PgnStudy.gameName)

instance (state prev : GameState) : Decidable (DrillCursorChanged state prev) := by
  unfold DrillCursorChanged
  infer_instance

/-- boardMayHaveChanged of the flush body (src/app.ts lines 357-362). -/
def BoardMayHaveChanged (state prev : GameState) : Prop :=
  state.fen ≠ prev.fen ∨
  state.selectedPieceId ≠ prev.selectedPieceId ∨
  state.selectedMoveIndex ≠ prev.selectedMoveIndex ∨
  state.phase ≠ prev.phase ∨
  DrillCursorChanged state prev

instance (state prev : GameState) : Decidable (BoardMayHaveChanged state prev) := by
  unfold BoardMayHaveChanged
  infer_instance

/-- The synchronizer's mutable closure state in initApp
(latestState, lastSentState, lastSentText, flushInProgress,
pendingFlushState). inFlightCount is ghost instrumentation counting flushes
that have started and not yet run their finally block, used to state the
single-flight property; it is incremented exactly where the source sets
flushInProgress = true and decremented exactly where the finally block sets
it back to false. -/
structure SyncState where
  latestState : GameState
  lastSentState : GameState
  lastSentText : String
  flushInProgress : Bool
  pendingFlushState : Option GameState
  inFlightCount : Nat
deriving DecidableEq, Repr

mutual

/-- One call of flushDisplayUpdate (src/app.ts lines 303-423), fuel-bounded
so that the tail recursion through the finally block is structural. The
synchronous prefix runs up to the first await; when nothing is awaited
(no relevant change, or neither text nor board traffic) the finally block
runs within the same call, otherwise the call suspends and finishFlush is
triggered later by the awaited sends completing. -/
def flushCall (textOf : GameState → String) : Nat → SyncState → SyncState
  | 0, σ => σ
  | fuel + 1, σ =>
    if σ.flushInProgress then { σ with pendingFlushState := some σ.latestState }
    else
      let state := σ.latestState
      let prev := σ.lastSentState
      let σ1 : SyncState :=
        { σ with flushInProgress := true, inFlightCount := σ.inFlightCount + 1,
                 lastSentState := state }
      if DisplayChanged state prev then
        let text := textOf state
        let σ2 := if text = σ1.lastSentText then σ1 else { σ1 with lastSentText := text }
        if BoardMayHaveChanged state prev ∨ text ≠ σ1.lastSentText then
          σ2
        else finishFlush textOf fuel σ2
      else finishFlush textOf fuel σ1

/-- The finally block of flushDisplayUpdate (src/app.ts lines 411-422):
clears the in-flight guard, and when a pending state was recorded, starts a
new flush for it immediately iff it differs from the last-sent state in fen
or phase, discarding it otherwise. -/
def finishFlush (textOf : GameState → String) : Nat → SyncState → SyncState
  | 0, σ => σ
  | fuel + 1, σ =>
    let σ1 : SyncState :=
      { σ with flushInProgress := false, inFlightCount := σ.inFlightCount - 1 }
    match σ1.pendingFlushState with
    | Option.none => σ1
    | some pending =>
      let σ2 := { σ1 with pendingFlushState := Option.none }
      if pending.fen ≠ σ2.lastSentState.fen ∨ pending.phase ≠ σ2.lastSentState.phase then
        flushCall textOf fuel { σ2 with latestState := pending }
      else σ2

end

/-- Fuel bound for the flush recursion: the retry flush always suspends
(its fen or phase differs, so boardMayHaveChanged holds), hence depth 4 is
never exhausted. -/
def FLUSH_FUEL : Nat := 4

/-- Events driving the synchronizer: a store notification updating
latestState, the debounce timer firing a flush request, and the awaited
sends of the in-flight flush completing. -/
inductive SyncEvent where
  | observe (s : GameState)
  | request
  | complete
deriving DecidableEq, Repr

/-- Event semantics of the synchronizer. A completion event can only come
from an in-flight flush. -/
def syncStep (textOf : GameState → String) : SyncEvent → SyncState → SyncState
  | .observe s, σ => { σ with latestState := s }
  | .request, σ => flushCall textOf FLUSH_FUEL σ
  | .complete, σ =>
    if σ.flushInProgress then finishFlush textOf FLUSH_FUEL σ else σ

/-- Synchronizer states reachable from initialization (src/app.ts lines
297-301: lastSentState = the current state, lastSentText empty, no flush in
flight, no pending state). -/
inductive SyncReachable (textOf : GameState → String) : SyncState → Prop where
  | init (g : GameState) :
      SyncReachable textOf ⟨g, g, "", false, Option.none, 0⟩
  | step (e : SyncEvent) {σ : SyncState} :
      SyncReachable textOf σ → SyncReachable textOf (syncStep textOf e σ)

/-- The remote traffic of one flush: the text sent to the hub (if any) and
whether board images were sent. -/
structure FlushOutput where
  sentText : Option String
  sentImages : Bool
deriving DecidableEq, Repr

/-- The remote sends performed by one call of flushDisplayUpdate
(src/app.ts lines 303-410): nothing when deferred behind an in-flight
flush; nothing when the change-relevant diff is empty; otherwise the
composed text iff it differs from the last-sent text, and board images iff
the board-relevant fields changed. -/
def flushTraffic (textOf : GameState → String) (σ : SyncState) : FlushOutput :=
  if σ.flushInProgress then ⟨Option.none, false⟩
  else
    let state := σ.latestState
    let prev := σ.lastSentState
    if DisplayChanged state prev then
      ⟨(if textOf state = σ.lastSentText then Option.none else some (textOf state)),
       decide (BoardMayHaveChanged state prev)⟩
    else ⟨Option.none, false⟩

/-! ## Concrete fixtures used by witnesses -/

/-- Text selector fixture: a constant display text. -/
def textFix : GameState → String := fun _ => ""

/-- A state differing from the initial state in its position. -/
def gFenChanged : GameState := { buildInitialState with fen := "w-fen" }

/-- The synchronizer's state right after initialization. -/
def syncInit : SyncState :=
  ⟨buildInitialState, buildInitialState, "", false, Option.none, 0⟩

/-- Toy rules engine fixture: accepts exactly e2-e4 from the toy start
snapshot. -/
def toyStart : GameSnap := ⟨"start", .w, []⟩

def toyAfter : GameSnap := ⟨"after-e4", .b, ["e4"]⟩

def toyRules : Rules := fun f t p g0 =>
  if f = "e2" ∧ t = "e4" ∧ p = Option.none ∧ g0 = toyStart then
    some (toyAfter, "e4")
  else Option.none

/-- A finished-game session state. -/
def gOverState : GameState := { buildInitialState with gameOver := some "checkmate" }

/-- Scenario D fixture: bullet state about to lose on time. -/
def bulletState : GameState :=
  { buildInitialState with
    mode := .bullet
    turn := .w
    timerActive := true
    timers := some ⟨1000, 60000, 0⟩
    lastTickTime := some 0 }

/-- A listener that always throws. -/
def throwingListener : Listener String := fun _ _ => .error "Listener error"

/-- A listener that always succeeds. -/
def okListener : Listener String := fun _ _ => .ok ()

/-- A white knight on g1 with two quiet moves. -/
def knightPiece : PieceEntry :=
  { id := "w-n-g1", label := "Ng1", color := .w, type := 'n', square := "g1",
    moves := [⟨"g1f3", "Nf3", "g1", "f3", Option.none⟩,
              ⟨"g1h3", "Nh3", "g1", "h3", Option.none⟩] }

/-- A destSelect state about to commit the knight's first move. -/
def destSelectState : GameState :=
  { buildInitialState with
    phase := .destSelect
    pieces := [knightPiece]
    selectedPieceId := some "w-n-g1"
    selectedMoveIndex := 0 }

/-- A promotionSelect state about to commit an e7-e8 rook promotion. -/
def promoSelectState : GameState :=
  { buildInitialState with
    phase := .promotionSelect
    pendingPromotionMove := some ("e7", "e8")
    selectedPromotionIndex := 1 }

/-- A state differing from the initial state only in selectedPromotionIndex. -/
def gPromoChanged : GameState := { buildInitialState with selectedPromotionIndex := 1 }

/-- A state differing from the initial state only in logScrollOffset. -/
def gLogChanged : GameState := { buildInitialState with logScrollOffset := 3 }

/-- Synchronizer state whose latest observed state changed only in
selectedPromotionIndex. -/
def syncPromo : SyncState :=
  ⟨gPromoChanged, buildInitialState, "", false, Option.none, 0⟩

/-- Synchronizer state whose latest observed state changed only in
logScrollOffset. -/
def syncLog : SyncState :=
  ⟨gLogChanged, buildInitialState, "", false, Option.none, 0⟩

/-- Synchronizer state whose latest observed state changed in its position. -/
def syncFen : SyncState :=
  ⟨gFenChanged, buildInitialState, "", false, Option.none, 0⟩

/-- Synchronizer state with a flush in flight: after initialization, a
position change is observed and the debounced flush request fires. -/
def syncBusy : SyncState :=
  syncStep textFix .request (syncStep textFix (.observe gFenChanged) syncInit)

/-- While that flush is in flight, a second request arrives, so the latest
state is recorded as pending (equal to the state being flushed). -/
def syncBusyPending : SyncState := syncStep textFix .request syncBusy

/-- While the flush is in flight, the initial position is observed again
and a request records it as pending (differing from the last-sent fen). -/
def syncBusyPending2 : SyncState :=
  syncStep textFix .request (syncStep textFix (.observe buildInitialState) syncBusy)

/-- The single-flight counter invariant: the ghost in-flight counter agrees
with the mutex flag, so it never exceeds one. -/
def CountInv (σ : SyncState) : Prop :=
  σ.inFlightCount = if σ.flushInProgress then 1 else 0

instance (σ : SyncState) : Decidable (CountInv σ) := by
  unfold CountInv
  infer_instance

/-! ## Helper lemmas -/

theorem capAppend_length (n : Nat) (h : List String) (x : String) :
    (capAppend n h x).length = min n (h.length + 1) := by
  unfold capAppend
  dsimp only
  split <;> rename_i hc <;>
    simp only [List.length_drop, List.length_append, List.length_cons,
      List.length_nil] at hc ⊢ <;>
      omega

theorem capAppend_length_le (n : Nat) (h : List String) (x : String) :
    (capAppend n h x).length ≤ n := by
  unfold capAppend
  dsimp only
  split <;> rename_i hc <;>
    simp only [List.length_drop, List.length_append, List.length_cons,
      List.length_nil] at hc ⊢ <;>
      omega

theorem capList_length_le (n : Nat) (h : List String) :
    (capList n h).length ≤ n := by
  unfold capList
  split <;> rename_i hc
  · simp only [List.length_drop]
    omega
  · omega

theorem capAppend_eq_drop (n : Nat) (hn : 1 ≤ n) (h : List String) (x : String) :
    capAppend n h x = h.drop (h.length + 1 - n) ++ [x] := by
  unfold capAppend
  dsimp only
  split
  case isTrue hlt =>
    have hlen : (h ++ [x]).length - n = h.length + 1 - n := by simp
    rw [hlen, List.drop_append_eq_append_drop]
    have h2 : h.length + 1 - n - h.length = 0 := by omega
    rw [h2, List.drop_zero]
  case isFalse hge =>
    simp only [List.length_append, List.length_cons, List.length_nil] at hge
    have h0 : h.length + 1 - n = 0 := by omega
    rw [h0, List.drop_zero]

theorem capAppend_getLast? (n : Nat) (hn : 1 ≤ n) (h : List String) (x : String) :
    (capAppend n h x).getLast? = some x := by
  rw [capAppend_eq_drop n hn h x]
  rw [List.getLast?_append]
  rfl

theorem capAppend_suffix (n : Nat) (hn : 1 ≤ n) (h : List String) (x : String) :
    (capAppend n h x).IsSuffix (h ++ [x]) := by
  rw [capAppend_eq_drop n hn h x]
  rcases List.drop_suffix (h.length + 1 - n) h with ⟨p, hp⟩
  exact ⟨p, by rw [← List.append_assoc, hp]⟩

/-! ## Claim theorems -/

/-- Claim C2: with gameOver set, the reducer processes only NEW_GAME —
every other action returns the state unchanged — and NEW_GAME clears
gameOver. -/
theorem gameOver_gate_claim (now : Int) (s : GameState) (a : Action) (r : String)
    (hg : s.gameOver = some r) :
    (a ≠ .NEW_GAME → reduce now s a = s) ∧
    (reduce now s .NEW_GAME).gameOver = Option.none := by
  constructor
  · intro ha
    unfold reduce
    rw [hg]
    cases a <;> simp_all
  · unfold reduce
    rw [hg]
    simp [newGame]

/-- Witness for C2 at a concrete finished-game state. -/
theorem gameOver_gate_claim_witness :
    (reduce 0 gOverState (.SCROLL .down) = gOverState) ∧
    (reduce 0 gOverState .NEW_GAME).gameOver = Option.none := by
  have h := gameOver_gate_claim 0 gOverState (.SCROLL .down) "checkmate" (by decide)
  exact ⟨h.1 (by decide), h.2⟩

/-- Claim C4 (amended): a scroll-class list event is suppressed iff fewer
than 15 ms elapsed since the last recorded scroll timestamp or the event is
within 150 ms of the last recorded tap; otherwise SCROLL with the event's
direction is emitted. The scroll timestamp is recorded whenever the
debounce check passes — including when the event is then suppressed by the
tap-suppression window — and the tap timestamps are untouched. -/
theorem scroll_classification_claim (now : Int) (ctx : InputCtx) (ev : ListItemEvent)
    (hev : ev.eventType = some .scrollTop ∨ ev.eventType = some .scrollBottom) :
    ((mapListEvent now ctx ev).1 = Option.none ↔
      (now - ctx.lastScrollTime < DEBOUNCE_MS ∨
       now - ctx.lastTapTime < SCROLL_SUPPRESS_AFTER_TAP_MS)) ∧
    (¬ (now - ctx.lastScrollTime < DEBOUNCE_MS ∨
        now - ctx.lastTapTime < SCROLL_SUPPRESS_AFTER_TAP_MS) →
      (mapListEvent now ctx ev).1 =
        some (.SCROLL (if ev.eventType = some OsEventType.scrollTop then .up else .down))) ∧
    ((mapListEvent now ctx ev).2.lastScrollTime =
      if now - ctx.lastScrollTime < DEBOUNCE_MS then ctx.lastScrollTime else now) ∧
    (mapListEvent now ctx ev).2.tapCooldownUntil = ctx.tapCooldownUntil ∧
    (mapListEvent now ctx ev).2.lastTapTime = ctx.lastTapTime := by
  by_cases hd : now - ctx.lastScrollTime < DEBOUNCE_MS <;>
    by_cases hs : now - ctx.lastTapTime < SCROLL_SUPPRESS_AFTER_TAP_MS <;>
      rcases hev with h | h <;>
        simp [mapListEvent, h, isScrollDebounced, isScrollSuppressed, hd, hs]

/-- Witness for C4's amended theorem: a scroll past both windows emits
SCROLL up and records the timestamp. -/
theorem scroll_classification_claim_witness :
    (mapListEvent 1000 ⟨0, 0, 0⟩ ⟨some .scrollTop, Option.none, Option.none⟩).1 =
      some (.SCROLL .up) ∧
    (mapListEvent 1000 ⟨0, 0, 0⟩ ⟨some .scrollTop, Option.none, Option.none⟩).2.lastScrollTime
      = 1000 := by
  have h := scroll_classification_claim 1000 ⟨0, 0, 0⟩
    ⟨some .scrollTop, Option.none, Option.none⟩ (Or.inl rfl)
  refine ⟨?_, ?_⟩
  · have := h.2.1 (by decide)
    simpa using this
  · have := h.2.2.1
    simpa using this

/-- Counterexample to claim C4 as stated: an event arriving 100 ms after a
tap (inside the 150 ms tap-suppression window) but past the 15 ms debounce
is suppressed, yet the scroll timestamp is still recorded (1100 instead of
the previous 0) because isScrollDebounced records it before the
tap-suppression check runs. -/
theorem scroll_timestamp_cex :
    (mapListEvent 1100 ⟨0, 0, 1000⟩ ⟨some .scrollTop, Option.none, Option.none⟩).1 =
      Option.none ∧
    (mapListEvent 1100 ⟨0, 0, 1000⟩ ⟨some .scrollTop, Option.none, Option.none⟩).2.lastScrollTime
      = 1100 ∧
    (1100 : Int) ≠ 0 := by decide

/-- Claim C5: tap-class events (click, double-click, a list event with no
explicit type but a selection index, and the simulator's empty sys event)
record the tap timestamp first — even when then suppressed — return null
iff the current time is inside the tap-cooldown window, and otherwise emit
TAP (or DOUBLE_TAP) with index defaulting to 0 and name to the empty
string. -/
theorem tap_classification_claim (now : Int) (ctx : InputCtx) (ev : ListItemEvent)
    (sev : SysItemEvent) :
    (ev.eventType = some .click →
      (mapListEvent now ctx ev).2 = { ctx with lastTapTime := now } ∧
      ((mapListEvent now ctx ev).1 = Option.none ↔ now < ctx.tapCooldownUntil) ∧
      (¬ now < ctx.tapCooldownUntil →
        (mapListEvent now ctx ev).1 =
          some (.TAP (ev.currentSelectItemIndex.getD 0) (ev.currentSelectItemName.getD "")))) ∧
    (ev.eventType = some .doubleClick →
      (mapListEvent now ctx ev).2 = { ctx with lastTapTime := now } ∧
      ((mapListEvent now ctx ev).1 = Option.none ↔ now < ctx.tapCooldownUntil) ∧
      (¬ now < ctx.tapCooldownUntil → (mapListEvent now ctx ev).1 = some .DOUBLE_TAP)) ∧
    (∀ idx, ev.eventType = Option.none → ev.currentSelectItemIndex = some idx →
      (mapListEvent now ctx ev).2 = { ctx with lastTapTime := now } ∧
      ((mapListEvent now ctx ev).1 = Option.none ↔ now < ctx.tapCooldownUntil) ∧
      (¬ now < ctx.tapCooldownUntil →
        (mapListEvent now ctx ev).1 = some (.TAP idx (ev.currentSelectItemName.getD "")))) ∧
    (sev.eventType = Option.none →
      (mapSysEvent now ctx sev).2 = { ctx with lastTapTime := now } ∧
      ((mapSysEvent now ctx sev).1 = Option.none ↔ now < ctx.tapCooldownUntil) ∧
      (¬ now < ctx.tapCooldownUntil → (mapSysEvent now ctx sev).1 = some (.TAP 0 ""))) := by
  by_cases hc : now < ctx.tapCooldownUntil <;>
    refine ⟨fun h => ?_, fun h => ?_, fun idx h hi => ?_, fun h => ?_⟩ <;>
      simp [mapListEvent, mapSysEvent, h, recordTap, isInTapCooldown, hc] <;>
        try simp [hi]

/-- Witness for C5: a suppressed click still records its tap timestamp, and
an un-suppressed index-only event emits TAP with the provided index. -/
theorem tap_classification_claim_witness :
    (mapListEvent 100 ⟨0, 400, 0⟩ ⟨some .click, some 2, some "Nf3"⟩).1 = Option.none ∧
    (mapListEvent 100 ⟨0, 400, 0⟩ ⟨some .click, some 2, some "Nf3"⟩).2.lastTapTime = 100 ∧
    (mapListEvent 500 ⟨0, 400, 0⟩ ⟨Option.none, some 2, some "Nf3"⟩).1 =
      some (.TAP 2 "Nf3") := by
  have h1 := tap_classification_claim 100 ⟨0, 400, 0⟩
    ⟨some .click, some 2, some "Nf3"⟩ ⟨Option.none⟩
  have h2 := tap_classification_claim 500 ⟨0, 400, 0⟩
    ⟨Option.none, some 2, some "Nf3"⟩ ⟨Option.none⟩
  refine ⟨?_, ?_, ?_⟩
  · exact (h1.1 rfl).2.1.mpr (by decide)
  · have := (h1.1 rfl).1
    simp [this]
  · have := (h2.2.2.1 2 rfl rfl).2.2 (by decide)
    simpa using this

/-- Claim C9: extendTapCooldown never shortens the cooldown: the deadline
becomes max(previous deadline, now + duration), so it is monotonically
non-decreasing, and a call whose new deadline would be earlier leaves the
context unchanged. -/
theorem extendTapCooldown_monotone_claim (now durationMs : Int) (ctx : InputCtx) :
    (extendTapCooldown now durationMs ctx).tapCooldownUntil =
      max ctx.tapCooldownUntil (now + durationMs) ∧
    ctx.tapCooldownUntil ≤ (extendTapCooldown now durationMs ctx).tapCooldownUntil ∧
    (now + durationMs ≤ ctx.tapCooldownUntil →
      extendTapCooldown now durationMs ctx = ctx) ∧
    (extendTapCooldown now durationMs ctx).lastScrollTime = ctx.lastScrollTime ∧
    (extendTapCooldown now durationMs ctx).lastTapTime = ctx.lastTapTime := by
  by_cases hgt : ctx.tapCooldownUntil < now + durationMs
  · have he : extendTapCooldown now durationMs ctx =
        { ctx with tapCooldownUntil := now + durationMs } := by
      unfold extendTapCooldown
      dsimp only
      rw [if_pos hgt]
    rw [he]
    refine ⟨?_, by dsimp only; omega, fun hle => absurd hle (by omega), rfl, rfl⟩
    dsimp only
    rw [max_eq_right hgt.le]
  · have he : extendTapCooldown now durationMs ctx = ctx := by
      unfold extendTapCooldown
      dsimp only
      rw [if_neg hgt]
    rw [he]
    exact ⟨by rw [max_eq_left (by omega)], le_refl _, fun _ => rfl, rfl, rfl⟩

/-- Witness for C9: extending by 400 from deadline 0 at time 100 gives 500;
a shorter re-extension (100 ms at time 150) leaves the deadline at 500. -/
theorem extendTapCooldown_monotone_claim_witness :
    (extendTapCooldown 100 400 ⟨0, 0, 0⟩).tapCooldownUntil = 500 ∧
    extendTapCooldown 150 100 ⟨0, 500, 0⟩ = ⟨0, 500, 0⟩ := by
  have h1 := extendTapCooldown_monotone_claim 100 400 ⟨0, 0, 0⟩
  have h2 := extendTapCooldown_monotone_claim 150 100 ⟨0, 500, 0⟩
  exact ⟨by rw [h1.1]; decide, h2.2.2.1 (by decide)⟩

/-- Claim C10: makeMoveUci returns null on every UCI string shorter than 4
characters (the empty string included) and on every move the rules engine
rejects; whenever it returns null the position snapshot is unchanged, and
when it returns a SAN the returned string is the SAN of the committed move
and the turn has passed to the other side (the turn flip being the
externally guaranteed behavior of the rules engine). -/
theorem makeMoveUci_claim (rules : Rules) (g : GameSnap) (uci : String)
    (hflip : ∀ f t p g0 g1 san, rules f t p g0 = some (g1, san) →
      g1.turn = g0.turn.other) :
    (uci.length < 4 → makeMoveUci rules g uci = (Option.none, g)) ∧
    ((makeMoveUci rules g uci).1 = Option.none → (makeMoveUci rules g uci).2 = g) ∧
    (∀ san g1, makeMoveUci rules g uci = (some san, g1) →
      g1.turn = g.turn.other ∧
      rules (uci.take 2) ((uci.drop 2).take 2)
        (if 4 < uci.length then some ((uci.drop 4).take 1) else Option.none) g =
          some (g1, san)) := by
  refine ⟨fun hlen => ?_, ?_, ?_⟩
  · unfold makeMoveUci
    rw [if_pos hlen]
  · intro hnone
    unfold makeMoveUci at hnone ⊢
    by_cases hlen : uci.length < 4
    · rw [if_pos hlen]
    · rw [if_neg hlen] at hnone ⊢
      unfold makeMove at hnone ⊢
      rcases hr : rules (uci.take 2) ((uci.drop 2).take 2)
          (if 4 < uci.length then some ((uci.drop 4).take 1) else Option.none) g with
        _ | ⟨g2, san2⟩
      · rfl
      · rw [hr] at hnone
        simp at hnone
  · intro san g1 h
    unfold makeMoveUci at h
    by_cases hlen : uci.length < 4
    · rw [if_pos hlen] at h
      simp at h
    · rw [if_neg hlen] at h
      unfold makeMove at h
      rcases hr : rules (uci.take 2) ((uci.drop 2).take 2)
          (if 4 < uci.length then some ((uci.drop 4).take 1) else Option.none) g with
        _ | ⟨g2, san2⟩
      · rw [hr] at h
        simp at h
      · rw [hr] at h
        injection h with h1 h2
        injection h1 with h1
        subst h1
        subst h2
        exact ⟨hflip _ _ _ _ _ _ hr, rfl⟩

/-- Witness for C10 with the toy rules engine: the empty and short strings
are rejected without touching the snapshot, an illegal move is rejected
without touching the snapshot, and e2e4 commits with SAN e4 and the turn
passing to black. -/
theorem makeMoveUci_claim_witness :
    makeMoveUci toyRules toyStart "" = (Option.none, toyStart) ∧
    makeMoveUci toyRules toyStart "e2e" = (Option.none, toyStart) ∧
    makeMoveUci toyRules toyStart "a1a2" = (Option.none, toyStart) ∧
    makeMoveUci toyRules toyStart "e2e4" = (some "e4", toyAfter) ∧
    toyAfter.turn = toyStart.turn.other := by
  have hflip : ∀ f t p g0 g1 san, toyRules f t p g0 = some (g1, san) →
      g1.turn = g0.turn.other := by
    intro f t p g0 g1 san h
    unfold toyRules at h
    split at h
    · rename_i hcond
      rcases hcond with ⟨-, -, -, hg0⟩
      subst hg0
      simp at h
      rw [← h.1]
      decide
    · simp at h
  have h := makeMoveUci_claim toyRules toyStart "e2e4" hflip
  refine ⟨by decide, by decide, by decide, ?_, by decide⟩
  · have h4 : makeMoveUci toyRules toyStart "e2e4" = (some "e4", toyAfter) := by decide
    rcases h.2.2 "e4" toyAfter h4 with ⟨-, -⟩
    exact h4

/-- Claim C6: the clock tick is an empty partial update unless timerActive
and timers are both present; otherwise it subtracts elapsed = now minus
lastTickTime (zero when lastTickTime is null) from exactly the side to
move, leaves the other side unchanged, clamps at zero, and sets
lastTickTime to now; and a TIMER_TICK that drives white's remaining time to
zero also clears timerActive and sets gameOver to "Black wins on time!". -/
theorem clock_tick_claim (now : Int) (s : GameState) :
    (¬ (s.timerActive = true ∧ s.timers.isSome = true) →
      tickTimer now s = ⟨Option.none, Option.none⟩) ∧
    (∀ t, s.timerActive = true → s.timers = some t →
      (tickTimer now s).lastTickTime = some now ∧
      (∀ lt, s.lastTickTime = some lt →
        (s.turn = .w →
          (tickTimer now s).timers =
            some ⟨max 0 (t.whiteMs - (now - lt)), t.blackMs, t.incrementMs⟩) ∧
        (s.turn = .b →
          (tickTimer now s).timers =
            some ⟨t.whiteMs, max 0 (t.blackMs - (now - lt)), t.incrementMs⟩)) ∧
      (s.lastTickTime = Option.none →
        (s.turn = .w →
          (tickTimer now s).timers =
            some ⟨max 0 (t.whiteMs - 0), t.blackMs, t.incrementMs⟩) ∧
        (s.turn = .b →
          (tickTimer now s).timers =
            some ⟨t.whiteMs, max 0 (t.blackMs - 0), t.incrementMs⟩))) ∧
    (∀ t lt, s.gameOver = Option.none → s.timerActive = true → s.timers = some t →
      s.turn = .w → s.lastTickTime = some lt → t.whiteMs ≤ now - lt →
      (reduce now s .TIMER_TICK).timers.map Timers.whiteMs = some 0 ∧
      (reduce now s .TIMER_TICK).timerActive = false ∧
      (reduce now s .TIMER_TICK).gameOver = some "Black wins on time!") := by
  refine ⟨fun hno => ?_, fun t ha ht => ?_, fun t lt hg ha ht hw hlt hle => ?_⟩
  · unfold tickTimer
    rcases hact : s.timerActive with _ | _
    · rfl
    · rcases hts : s.timers with _ | t
      · rfl
      · exact absurd ⟨hact, by rw [hts]; rfl⟩ hno
  · unfold tickTimer
    rw [ha, ht]
    refine ⟨rfl, fun lt hlt => ?_, fun hlt => ?_⟩ <;>
      rw [hlt] <;>
        exact ⟨fun hw => by rw [hw]; rfl, fun hb => by rw [hb]; rfl⟩
  · have hmax : max 0 (t.whiteMs - (now - lt)) = 0 := by omega
    unfold reduce
    rw [hg]
    unfold reduceBody reduceTimerTick tickTimer
    rw [ha, ht, hlt, hw]
    simp only [hmax]
    exact ⟨rfl, rfl, rfl⟩

/-- Witness for C6: scenario D — bullet state, whiteMs 1000, 100 s elapsed:
inactive tick is empty, active tick clamps to zero, TIMER_TICK ends the
game for black on time. -/
theorem clock_tick_claim_witness :
    tickTimer 100000 { bulletState with timerActive := false } =
      ⟨Option.none, Option.none⟩ ∧
    (tickTimer 100000 bulletState).timers = some ⟨0, 60000, 0⟩ ∧
    (reduce 100000 bulletState .TIMER_TICK).timerActive = false ∧
    (reduce 100000 bulletState .TIMER_TICK).gameOver = some "Black wins on time!" := by
  have h1 := clock_tick_claim 100000 { bulletState with timerActive := false }
  have h2 := clock_tick_claim 100000 bulletState
  refine ⟨h1.1 (by decide), ?_, ?_, ?_⟩
  · have := ((h2.2.1 ⟨1000, 60000, 0⟩ rfl rfl).2.1 0 rfl).1 rfl
    rw [this]
    decide
  · exact (h2.2.2 ⟨1000, 60000, 0⟩ 0 rfl rfl rfl rfl rfl (by decide)).2.1
  · exact (h2.2.2 ⟨1000, 60000, 0⟩ 0 rfl rfl rfl rfl rfl (by decide)).2.2

/-- Claim C7: dispatch applies the reducer; when the result equals the
previous state no listener is invoked; otherwise every subscribed listener
is invoked in subscription order with (newState, previousState), a throwing
listener does not prevent the remaining listeners from being invoked (every
position of the outcome list is filled), and dispatch itself is a total
function (it never throws). -/
theorem dispatch_isolation_claim {ε : Type} (listeners : List (Listener ε)) (now : Int)
    (s : GameState) (a : Action) :
    (reduce now s a = s → dispatch listeners now s a = (s, [])) ∧
    (reduce now s a ≠ s →
      (dispatch listeners now s a).1 = reduce now s a ∧
      (dispatch listeners now s a).2 =
        listeners.map (fun l => l (reduce now s a) s) ∧
      (dispatch listeners now s a).2.length = listeners.length ∧
      ∀ i : Nat, (dispatch listeners now s a).2[i]? =
        (listeners[i]?).map (fun l => l (reduce now s a) s)) := by
  constructor
  · intro he
    unfold dispatch
    rw [if_pos he]
  · intro hne
    unfold dispatch
    rw [if_neg hne]
    exact ⟨rfl, rfl, by simp, fun i => by simp⟩

/-- Witness for C7: with a throwing listener subscribed first, a
state-changing action still reaches the second listener and dispatch
returns normally; a gated no-op action invokes no listener. -/
theorem dispatch_isolation_claim_witness :
    dispatch [throwingListener, okListener] 0 gOverState (.SCROLL .down) =
      (gOverState, []) ∧
    (dispatch [throwingListener, okListener] 0 buildInitialState .ENGINE_THINKING).2 =
      [.error "Listener error", .ok ()] := by
  have h1 := dispatch_isolation_claim [throwingListener, okListener] 0 gOverState
    (.SCROLL .down)
  have h2 := dispatch_isolation_claim [throwingListener, okListener] 0 buildInitialState
    .ENGINE_THINKING
  refine ⟨h1.1 (by decide), ?_⟩
  rw [(h2.2 (by decide)).2.1]
  rfl

/-! ## History lemmas for the reducer -/

theorem reduceScroll_history (now : Int) (s : GameState) (dir : Direction) :
    (reduceScroll now s dir).history = s.history := by
  unfold reduceScroll
  split <;> first
    | rfl
    | (split <;> rfl)

theorem openMenu_history (now : Int) (s : GameState) :
    (openMenu now s).history = s.history := by
  unfold openMenu
  split <;> rfl

theorem reduceMenuSelect_history (now : Int) (s : GameState) (opt : MenuOption) :
    (reduceMenuSelect now s opt).history = s.history := by
  unfold reduceMenuSelect
  split <;> first
    | rfl
    | (split <;> rfl)

theorem reduceSetMode_history (now : Int) (s : GameState) (m : Mode) :
    (reduceSetMode now s m).history = s.history := by
  unfold reduceSetMode
  split <;> rfl

theorem reduceDoubleTap_history (now : Int) (s : GameState) :
    (reduceDoubleTap now s).history = s.history := by
  unfold reduceDoubleTap
  split <;> first
    | rfl
    | apply openMenu_history
    | (split <;> first
        | rfl
        | apply openMenu_history
        | (split <;> rfl))

theorem reduceTimerTick_history (now : Int) (s : GameState) :
    (reduceTimerTick now s).history = s.history := by
  unfold reduceTimerTick
  rcases h : (tickTimer now s).timers with _ | t1 <;>
    rcases ht : s.turn with _ | _ <;>
      simp only [h, ht] <;>
        first
          | rfl
          | (split <;> rfl)

theorem reduceTap_history (now : Int) (s : GameState) :
    (reduceTap now s).history = s.history ∨
    ∃ san, (reduceTap now s).history = capAppend MAX_HISTORY_LENGTH s.history san := by
  unfold reduceTap
  split <;> first
    | (left; rfl)
    | (left; apply reduceSetMode_history)
    | (split <;> first
        | (left; rfl)
        | (left; apply reduceMenuSelect_history)
        | (right; exact ⟨_, rfl⟩)
        | (split <;> first
            | (left; rfl)
            | (right; exact ⟨_, rfl⟩)))

theorem reduceBody_history (now : Int) (s : GameState) (a : Action) :
    (reduceBody now s a).history = s.history ∨
    (∃ san, (reduceBody now s a).history = capAppend MAX_HISTORY_LENGTH s.history san) ∨
    (∃ h2, (reduceBody now s a).history = capList MAX_HISTORY_LENGTH h2) ∨
    (reduceBody now s a).history = [] := by
  cases a with
  | SCROLL dir => exact Or.inl (reduceScroll_history now s dir)
  | TAP i nm =>
    rcases reduceTap_history now s with h | ⟨san, h⟩
    · exact Or.inl h
    · exact Or.inr (Or.inl ⟨san, h⟩)
  | DOUBLE_TAP => exact Or.inl (reduceDoubleTap_history now s)
  | OPEN_MENU => exact Or.inl (openMenu_history now s)
  | CLOSE_MENU => exact Or.inl rfl
  | MENU_SELECT opt =>
    refine Or.inl ?_
    by_cases hph : s.phase = Phase.menu
    · have he : reduceBody now s (.MENU_SELECT opt) = reduceMenuSelect now s opt := by
        simp [reduceBody, hph]
      rw [he]
      apply reduceMenuSelect_history
    · simp [reduceBody, hph]
  | SET_DIFFICULTY level => exact Or.inl rfl
  | SET_BOARD_MARKERS enabled => exact Or.inl rfl
  | SET_MODE m => exact Or.inl (reduceSetMode_history now s m)
  | START_BULLET_GAME i => exact Or.inl rfl
  | TIMER_TICK => exact Or.inl (reduceTimerTick_history now s)
  | APPLY_INCREMENT c =>
    refine Or.inl ?_
    rcases h : applyIncrement s c with _ | t1 <;> simp only [reduceBody, h]
  | START_DRILL d => exact Or.inl rfl
  | DRILL_ANSWER correct =>
    refine Or.inl ?_
    rcases h : s.academyState with _ | av <;> simp only [reduceBody, h]
  | REFRESH fen turn pieces inCheck => exact Or.inl rfl
  | ENGINE_THINKING => exact Or.inl rfl
  | ENGINE_MOVE uci san => exact Or.inr (Or.inl ⟨san, rfl⟩)
  | ENGINE_ERROR => exact Or.inl rfl
  | LOAD_GAME fen history turn => exact Or.inr (Or.inr (Or.inl ⟨history, rfl⟩))
  | MARK_SAVED => exact Or.inl rfl
  | CONFIRM_EXIT save =>
    refine Or.inl ?_
    rcases save <;> simp only [reduceBody, if_true, if_false, Bool.false_eq_true]
  | NEW_GAME => exact Or.inr (Or.inr (Or.inr rfl))
  | FOREGROUND_ENTER => exact Or.inl rfl
  | FOREGROUND_EXIT => exact Or.inl rfl

theorem reduce_history_le (now : Int) (s : GameState) (a : Action)
    (hs : s.history.length ≤ MAX_HISTORY_LENGTH) :
    (reduce now s a).history.length ≤ MAX_HISTORY_LENGTH := by
  unfold reduce
  rcases hg : s.gameOver with _ | r
  · show (reduceBody now s a).history.length ≤ MAX_HISTORY_LENGTH
    rcases reduceBody_history now s a with h | ⟨san, h⟩ | ⟨h2, h⟩ | h <;> rw [h]
    · exact hs
    · exact capAppend_length_le _ _ _
    · exact capList_length_le _ _
    · exact Nat.zero_le _
  · cases a <;> first
      | exact hs
      | exact Nat.zero_le _

theorem reachable_history_le (s : GameState) (h : Reachable s) :
    s.history.length ≤ MAX_HISTORY_LENGTH := by
  induction h with
  | init => exact Nat.zero_le _
  | step now a hr ih => exact reduce_history_le _ _ _ ih

/-- Claim C8: every reachable session state has at most
MAX_HISTORY_LENGTH history entries; every move-committing action (player
commit from destSelect, player promotion commit from promotionSelect, or
ENGINE_MOVE) yields history of length min(MAX_HISTORY_LENGTH, previous + 1)
with the newest move last, and the result is a suffix of the previous
history plus the new move, so any truncation drops only the oldest
entries. -/
theorem history_cap_claim :
    (∀ s, Reachable s → s.history.length ≤ MAX_HISTORY_LENGTH) ∧
    (∀ (now : Int) (s : GameState) (uci san : String), s.gameOver = Option.none →
      (reduce now s (.ENGINE_MOVE uci san)).history.length =
        min MAX_HISTORY_LENGTH (s.history.length + 1) ∧
      (reduce now s (.ENGINE_MOVE uci san)).history.getLast? = some san ∧
      (reduce now s (.ENGINE_MOVE uci san)).history.IsSuffix (s.history ++ [san])) ∧
    (∀ (now : Int) (s : GameState) (i : Nat) (nm : String) (m : CarouselMove),
      s.gameOver = Option.none → s.phase = .destSelect →
      getSelectedMove s = some m → m.promotion = Option.none →
      (reduce now s (.TAP i nm)).history.length =
        min MAX_HISTORY_LENGTH (s.history.length + 1) ∧
      (reduce now s (.TAP i nm)).history.getLast? = some m.san ∧
      (reduce now s (.TAP i nm)).history.IsSuffix (s.history ++ [m.san])) ∧
    (∀ (now : Int) (s : GameState) (i : Nat) (nm : String) (f t : String),
      s.gameOver = Option.none → s.phase = .promotionSelect →
      s.pendingPromotionMove = some (f, t) →
      (reduce now s (.TAP i nm)).history.length =
        min MAX_HISTORY_LENGTH (s.history.length + 1) ∧
      (reduce now s (.TAP i nm)).history.getLast? =
        some (f ++ t ++ String.mk [(PROMOTION_PIECES[s.selectedPromotionIndex]?).getD 'q']) ∧
      (reduce now s (.TAP i nm)).history.IsSuffix
        (s.history ++
          [f ++ t ++ String.mk [(PROMOTION_PIECES[s.selectedPromotionIndex]?).getD 'q']])) := by
  have hone : 1 ≤ MAX_HISTORY_LENGTH := by decide
  refine ⟨reachable_history_le, fun now s uci san hg => ?_,
    fun now s i nm m hg hph hm hpromo => ?_, fun now s i nm f t hg hph hpp => ?_⟩
  · have he : (reduce now s (.ENGINE_MOVE uci san)).history =
        capAppend MAX_HISTORY_LENGTH s.history san := by
      unfold reduce
      rw [hg]
      rfl
    rw [he]
    exact ⟨capAppend_length _ _ _, capAppend_getLast? _ hone _ _,
      capAppend_suffix _ hone _ _⟩
  · have he : (reduce now s (.TAP i nm)).history =
        capAppend MAX_HISTORY_LENGTH s.history m.san := by
      unfold reduce
      rw [hg]
      show (reduceTap now s).history = _
      unfold reduceTap
      rw [hph, hm]
      dsimp only
      rw [hpromo]
      rfl
    rw [he]
    exact ⟨capAppend_length _ _ _, capAppend_getLast? _ hone _ _,
      capAppend_suffix _ hone _ _⟩
  · have he : (reduce now s (.TAP i nm)).history =
        capAppend MAX_HISTORY_LENGTH s.history
          (f ++ t ++ String.mk [(PROMOTION_PIECES[s.selectedPromotionIndex]?).getD 'q']) := by
      unfold reduce
      rw [hg]
      show (reduceTap now s).history = _
      unfold reduceTap
      rw [hph, hpp]
      rfl
    rw [he]
    exact ⟨capAppend_length _ _ _, capAppend_getLast? _ hone _ _,
      capAppend_suffix _ hone _ _⟩

/-- Witness for C8: the initial state respects the cap; committing the
knight's highlighted move from destSelect appends Nf3 as the newest entry;
committing the pending e7-e8 promotion with the rook option appends e7e8r;
an engine reply appends e5. -/
theorem history_cap_claim_witness :
    buildInitialState.history.length ≤ MAX_HISTORY_LENGTH ∧
    (reduce 0 destSelectState (.TAP 0 "")).history.length = 1 ∧
    (reduce 0 destSelectState (.TAP 0 "")).history.getLast? = some "Nf3" ∧
    (reduce 0 promoSelectState (.TAP 0 "")).history.length = 1 ∧
    (reduce 0 promoSelectState (.TAP 0 "")).history.getLast? = some "e7e8r" ∧
    (reduce 0 buildInitialState (.ENGINE_MOVE "e7e5" "e5")).history.getLast? = some "e5" := by
  have h := history_cap_claim
  have hm : getSelectedMove destSelectState =
      some ⟨"g1f3", "Nf3", "g1", "f3", Option.none⟩ := by decide
  have h3 := h.2.2.1 0 destSelectState 0 "" ⟨"g1f3", "Nf3", "g1", "f3", Option.none⟩
    rfl rfl hm rfl
  have h4 := h.2.2.2 0 promoSelectState 0 "" "e7" "e8" rfl rfl rfl
  have h2 := h.2.1 0 buildInitialState "e7e5" "e5" rfl
  refine ⟨h.1 buildInitialState Reachable.init, by rw [h3.1]; decide, h3.2.1,
    by rw [h4.1]; decide, ?_, h2.2.1⟩
  rw [h4.2.1]
  decide

/-! ## Single-flight lemmas for the display synchronizer -/

theorem countInv_decrement (σ : SyncState) (h : CountInv σ) :
    σ.inFlightCount - 1 = 0 := by
  unfold CountInv at h
  rcases hb : σ.flushInProgress <;> rw [hb] at h <;> simp [h]

theorem flushCall_inFlight (textOf : GameState → String) (fuel : Nat) (σ : SyncState)
    (h : σ.flushInProgress = true) :
    flushCall textOf (fuel + 1) σ = { σ with pendingFlushState := some σ.latestState } := by
  rw [flushCall, if_pos h]

theorem flushCall_countInv_aux (textOf : GameState → String) :
    ∀ fuel : Nat,
      (∀ σ, CountInv σ → CountInv (flushCall textOf fuel σ)) ∧
      (∀ σ, CountInv σ → CountInv (finishFlush textOf fuel σ)) := by
  intro fuel
  induction fuel with
  | zero =>
    exact ⟨fun σ h => by rw [flushCall]; exact h,
           fun σ h => by rw [finishFlush]; exact h⟩
  | succ n ih =>
    constructor
    · intro σ h
      rw [flushCall]
      by_cases hf : σ.flushInProgress = true
      · rw [if_pos hf]
        unfold CountInv at h ⊢
        simpa using h
      · rw [if_neg hf]
        have hc0 : σ.inFlightCount = 0 := by
          unfold CountInv at h
          rw [h, if_neg hf]
        dsimp only
        split
        · split <;> split <;> first
            | (apply ih.2
               simp [CountInv, hc0])
            | simp [CountInv, hc0]
        · apply ih.2
          simp [CountInv, hc0]
    · intro σ h
      rw [finishFlush]
      dsimp only
      rcases hp : σ.pendingFlushState with _ | pending
      · simp only [hp]
        simp [CountInv, countInv_decrement σ h]
      · simp only [hp]
        split
        · apply ih.1
          simp [CountInv, countInv_decrement σ h]
        · simp [CountInv, countInv_decrement σ h]

theorem syncReachable_countInv (textOf : GameState → String) :
    ∀ σ, SyncReachable textOf σ → CountInv σ := by
  intro σ h
  induction h with
  | init g => rfl
  | step e hr ih =>
    cases e with
    | observe s =>
      unfold CountInv at ih ⊢
      simpa using ih
    | request => exact (flushCall_countInv_aux textOf FLUSH_FUEL).1 _ ih
    | complete =>
      simp only [syncStep]
      split
      · exact (flushCall_countInv_aux textOf FLUSH_FUEL).2 _ ih
      · exact ih

theorem finishFlush_no_pending (textOf : GameState → String) (fuel : Nat) (σ : SyncState)
    (hp : σ.pendingFlushState = Option.none) :
    finishFlush textOf (fuel + 1) σ =
      { σ with flushInProgress := false, inFlightCount := σ.inFlightCount - 1 } := by
  rw [finishFlush]
  dsimp only
  simp only [hp]

theorem finishFlush_pending_same (textOf : GameState → String) (fuel : Nat)
    (σ : SyncState) (p : GameState) (hp : σ.pendingFlushState = some p)
    (hfen : p.fen = σ.lastSentState.fen) (hph : p.phase = σ.lastSentState.phase) :
    finishFlush textOf (fuel + 1) σ =
      { σ with flushInProgress := false, pendingFlushState := Option.none,
               inFlightCount := σ.inFlightCount - 1 } := by
  rw [finishFlush]
  dsimp only
  simp only [hp]
  rw [if_neg]
  simp [hfen, hph]

theorem finishFlush_pending_differs (textOf : GameState → String) (fuel : Nat)
    (σ : SyncState) (p : GameState) (hp : σ.pendingFlushState = some p)
    (hd : p.fen ≠ σ.lastSentState.fen ∨ p.phase ≠ σ.lastSentState.phase) :
    (finishFlush textOf (fuel + 1 + 1) σ).flushInProgress = true ∧
    (finishFlush textOf (fuel + 1 + 1) σ).latestState = p ∧
    (finishFlush textOf (fuel + 1 + 1) σ).lastSentState = p ∧
    (finishFlush textOf (fuel + 1 + 1) σ).pendingFlushState = Option.none := by
  have hD : DisplayChanged p σ.lastSentState := by
    unfold DisplayChanged
    rcases hd with h | h
    · exact Or.inr (Or.inl h)
    · exact Or.inl h
  have hB : BoardMayHaveChanged p σ.lastSentState := by
    unfold BoardMayHaveChanged
    rcases hd with h | h
    · exact Or.inl h
    · exact Or.inr (Or.inr (Or.inr (Or.inl h)))
  rw [finishFlush]
  dsimp only
  simp only [hp]
  rw [if_pos hd, flushCall]
  rw [if_neg (by simp)]
  dsimp only
  rw [if_pos hD, if_pos (Or.inl hB)]
  split <;> exact ⟨rfl, rfl, rfl, rfl⟩

/-- Claim C1: at most one flush is in flight at every reachable
synchronizer state (the ghost in-flight counter never exceeds one); a flush
request arriving while one is in flight only records the latest observed
state as pending; and when the in-flight flush completes, a new flush is
started immediately iff the pending state differs from the last-sent state
in fen or phase — the new flush is started for the pending state — and
otherwise the pending state is discarded with no flush starting. -/
theorem flush_single_flight_claim (textOf : GameState → String) :
    (∀ σ, SyncReachable textOf σ → σ.inFlightCount ≤ 1) ∧
    (∀ σ, σ.flushInProgress = true →
      syncStep textOf .request σ = { σ with pendingFlushState := some σ.latestState }) ∧
    (∀ σ p, σ.flushInProgress = true → σ.pendingFlushState = some p →
      ((p.fen ≠ σ.lastSentState.fen ∨ p.phase ≠ σ.lastSentState.phase) →
        (syncStep textOf .complete σ).flushInProgress = true ∧
        (syncStep textOf .complete σ).latestState = p ∧
        (syncStep textOf .complete σ).lastSentState = p ∧
        (syncStep textOf .complete σ).pendingFlushState = Option.none) ∧
      (p.fen = σ.lastSentState.fen → p.phase = σ.lastSentState.phase →
        syncStep textOf .complete σ =
          { σ with flushInProgress := false, pendingFlushState := Option.none,
                   inFlightCount := σ.inFlightCount - 1 })) := by
  refine ⟨fun σ hr => ?_, fun σ hf => ?_,
    fun σ p hf hp => ⟨fun hd => ?_, fun hfen hph => ?_⟩⟩
  · have h := syncReachable_countInv textOf σ hr
    unfold CountInv at h
    rw [h]
    split <;> omega
  · show flushCall textOf FLUSH_FUEL σ = _
    exact flushCall_inFlight textOf 3 σ hf
  · have he : syncStep textOf .complete σ = finishFlush textOf FLUSH_FUEL σ := by
      show (if σ.flushInProgress then finishFlush textOf FLUSH_FUEL σ else σ) = _
      rw [if_pos hf]
    rw [he]
    exact finishFlush_pending_differs textOf 2 σ p hp hd
  · have he : syncStep textOf .complete σ = finishFlush textOf FLUSH_FUEL σ := by
      show (if σ.flushInProgress then finishFlush textOf FLUSH_FUEL σ else σ) = _
      rw [if_pos hf]
    rw [he]
    exact finishFlush_pending_same textOf 3 σ p hp hfen hph

/-- Witness for C1 at concrete reachable synchronizer states: a flush is in
flight, the counter respects the bound, a further request only records the
pending state, a pending state equal on fen and phase is discarded without
a new flush, and a pending state with a different fen restarts a flush for
it. -/
theorem flush_single_flight_claim_witness :
    syncBusy.flushInProgress = true ∧
    syncBusy.inFlightCount ≤ 1 ∧
    syncStep textFix .request syncBusy =
      { syncBusy with pendingFlushState := some syncBusy.latestState } ∧
    syncStep textFix .complete syncBusyPending =
      { syncBusyPending with flushInProgress := false,
                             pendingFlushState := Option.none,
                             inFlightCount := syncBusyPending.inFlightCount - 1 } ∧
    (syncStep textFix .complete syncBusyPending2).flushInProgress = true ∧
    (syncStep textFix .complete syncBusyPending2).latestState = buildInitialState := by
  have h := flush_single_flight_claim textFix
  have hr : SyncReachable textFix syncBusy :=
    SyncReachable.step .request
      (SyncReachable.step (.observe gFenChanged) (SyncReachable.init buildInitialState))
  have h3 := h.2.2 syncBusyPending gFenChanged (by decide) (by decide)
  have h4 := h.2.2 syncBusyPending2 buildInitialState (by decide) (by decide)
  have h4d := h4.1 (Or.inl (by decide))
  exact ⟨by decide, h.1 syncBusy hr, h.2.1 syncBusy (by decide),
    h3.2 (by decide) (by decide), h4d.1, h4d.2.1⟩

/-- Counterexample to claim C3 as stated: two states that differ only in a
selection index of the spec's list — selectedPromotionIndex (and likewise
logScrollOffset) — are not display-relevant for the code's diff: the flush
returns before sending anything, producing no remote traffic. -/
theorem displayChanged_field_list_cex :
    gPromoChanged ≠ buildInitialState ∧
    gPromoChanged.selectedPromotionIndex ≠ buildInitialState.selectedPromotionIndex ∧
    flushTraffic textFix syncPromo = ⟨Option.none, false⟩ ∧
    gLogChanged ≠ buildInitialState ∧
    gLogChanged.logScrollOffset ≠ buildInitialState.logScrollOffset ∧
    flushTraffic textFix syncLog = ⟨Option.none, false⟩ := by decide

/-- Claim C3 (amended): the flush compares the new state against the
last-sent state on the code's field list — phase, position, thinking flag,
game-over flag, the selection indices selectedPieceId, selectedMoveIndex,
menuSelectedIndex and selectedTimeControlIndex (but not
selectedPromotionIndex or logScrollOffset), timer values and academy-drill
cursor/score/PGN fields. When the states are equal on that list no remote
traffic is produced; when they differ, a board-image update is sent iff the
board-relevant fields changed and a text update is sent iff the composed
text differs from the last-sent text. A difference in one of the four
compared selection indices is display-relevant. -/
theorem displayChanged_traffic_claim (textOf : GameState → String) (σ : SyncState)
    (hnf : σ.flushInProgress = false) :
    ((flushTraffic textOf σ).sentImages = true ↔
      DisplayChanged σ.latestState σ.lastSentState ∧
        BoardMayHaveChanged σ.latestState σ.lastSentState) ∧
    (∀ t, (flushTraffic textOf σ).sentText = some t ↔
      DisplayChanged σ.latestState σ.lastSentState ∧
        textOf σ.latestState ≠ σ.lastSentText ∧ t = textOf σ.latestState) ∧
    (¬ DisplayChanged σ.latestState σ.lastSentState →
      flushTraffic textOf σ = ⟨Option.none, false⟩) ∧
    (∀ (g : GameState) (pid : Option String) (i : Nat),
      (pid ≠ g.selectedPieceId → DisplayChanged { g with selectedPieceId := pid } g) ∧
      (i ≠ g.selectedMoveIndex → DisplayChanged { g with selectedMoveIndex := i } g) ∧
      (i ≠ g.menuSelectedIndex → DisplayChanged { g with menuSelectedIndex := i } g) ∧
      (i ≠ g.selectedTimeControlIndex →
        DisplayChanged { g with selectedTimeControlIndex := i } g) ∧
      ¬ DisplayChanged { g with selectedPromotionIndex := i,
                                logScrollOffset := i + 1 } g) := by
  have hni : ¬ σ.flushInProgress = true := by
    rw [hnf]
    simp
  refine ⟨?_, fun t => ?_, fun hD => ?_, fun g pid i => ?_⟩
  · by_cases hD : DisplayChanged σ.latestState σ.lastSentState <;>
      simp [flushTraffic, hni, hD]
  · by_cases hD : DisplayChanged σ.latestState σ.lastSentState
    · by_cases ht : textOf σ.latestState = σ.lastSentText <;>
        simp [flushTraffic, hni, hD, ht, eq_comm]
    · simp [flushTraffic, hni, hD]
  · simp [flushTraffic, hni, hD]
  · exact ⟨fun h => by simp [DisplayChanged, h], fun h => by simp [DisplayChanged, h],
      fun h => by simp [DisplayChanged, h], fun h => by simp [DisplayChanged, h],
      by simp [DisplayChanged]⟩

/-- Witness for C3's amended theorem: a position change produces a board
image update and, with an unchanged composed text, no text update. -/
theorem displayChanged_traffic_claim_witness :
    (flushTraffic textFix syncFen).sentImages = true ∧
    (flushTraffic textFix syncFen).sentText = Option.none := by
  have h := displayChanged_traffic_claim textFix syncFen rfl
  constructor
  · exact h.1.mpr ⟨by decide, by decide⟩
  · rcases hst : (flushTraffic textFix syncFen).sentText with _ | t
    · rfl
    · have h2 := (h.2.1 t).mp hst
      exact absurd h2.2.1 (by decide)

end EvenChess
